import Mathlib

/-!
Verification of the ai-service (Eduflow) content-processing pipeline.

This file gives a shallow embedding of the core logic of the service — request
validation (`ValidationService`), policy enforcement, cost accounting and the
schema-correction loop (`IaProviderService`), the execution-state store
(`PersistenceService`), the synchronous pipeline (`ProcessingService`) and the
incremental chapter engine (`IncrementalGenerationService`) — as executable
Lean definitions, together with theorems settling the behavioural claims made
about it.

Modelling conventions:
* JavaScript strings are Lean `String`s; `toLowerCase` is mapped to
  `Char.toLower` (faithful on ASCII, which is all the table keys and rule
  tags use).
* JavaScript numbers that the code only ever adds/multiplies are modelled as
  `ℚ` (exact arithmetic); timestamps are abstract `Nat` instants passed in as
  parameters (the code reads `Date.now()` / `new Date()` from the
  environment).
* `JSON.parse` is an external runtime function: it is modelled as an explicit
  parameter `parse : String → Option α` (`none` = the call throws), so every
  theorem quantifies over the parser behaviour; `new URL` is modelled by a
  concrete approximation of the WHATWG parser, documented at its definition.
* `throw` / rejected promises are modelled with `Except`; a JavaScript `Map`
  is an association list with `Map.set` insert-or-replace semantics.
-/

set_option linter.unusedVariables false

namespace AiService

/-- Severity of a policy violation, from the violation records built in
`ValidationService.checkForbiddenTerms` / `checkRequiredTerms`. -/
inductive Severity
| low
| medium
| high
deriving DecidableEq, Repr

/-- A policy violation record as pushed by the validation service:
`{ rule, message, severity }`. -/
structure PolicyViolationDto where
  rule : String
  message : String
  severity : Severity
deriving DecidableEq, Repr

/-- Model of JavaScript `String.prototype.toLowerCase` (ASCII-faithful). -/
def jsToLowerCase (s : String) : String :=
  ⟨s.data.map Char.toLower⟩

/-- Model of JavaScript `String.prototype.includes`: substring containment. -/
def jsIncludes (hay needle : String) : Bool :=
  decide (needle.data <:+: hay.data)

/-- Source `ValidationService.checkForbiddenTerms`: lowercase the text once, then for
each forbidden term push one `forbidden_term` violation (severity `high`) when
the lowercased term occurs in the lowercased text. -/
def checkForbiddenTerms (text : String) (forbiddenTerms : List String) : List PolicyViolationDto :=
  let lowerText := jsToLowerCase text
  forbiddenTerms.foldl
    (fun violations term =>
      if jsIncludes lowerText (jsToLowerCase term) then
        violations ++ [{ rule := "forbidden_term",
                         message := "Termo proibido encontrado: \"" ++ term ++ "\"",
                         severity := Severity.high }]
      else violations)
    []

/-- Source `ValidationService.checkRequiredTerms`: for each required term push one
`missing_required_term` violation (severity `medium`) when the lowercased term
does NOT occur in the lowercased text. -/
def checkRequiredTerms (text : String) (requiredTerms : List String) : List PolicyViolationDto :=
  let lowerText := jsToLowerCase text
  requiredTerms.foldl
    (fun violations term =>
      if !(jsIncludes lowerText (jsToLowerCase term)) then
        violations ++ [{ rule := "missing_required_term",
                         message := "Termo obrigatório não encontrado: \"" ++ term ++ "\"",
                         severity := Severity.medium }]
      else violations)
    []

/-- Source `PolicyDto`: required/forbidden terms and style guidelines, all optional. -/
structure PolicyDto where
  requiredTerms : Option (List String)
  forbiddenTerms : Option (List String)
  styleGuidelines : Option (List String)
deriving DecidableEq, Repr

/-- An uninterpreted JSON value (quiz entries, activities, …), represented by
its serialized text; the pipeline never inspects these. -/
abbrev JsValue := String

/-- Quality metrics block of the frontend payload. -/
structure MetricsDto where
  readabilityScore : Int
  durationMin : Int
  coverage : Int
deriving DecidableEq, Repr

/-- One improved-text entry of the frontend payload. The source field name is
`section` (a Lean keyword), rendered here as `sectionName`. -/
structure ImprovedTextDto where
  sectionName : String
  content : String
deriving DecidableEq, Repr

/-- Source `meta` block of the frontend payload. -/
structure MetaDto where
  rawId : String
  adaptedId : String
deriving DecidableEq, Repr

/-- Source `WorkflowFrontendPayloadDto`, the output payload shape used by
`ProcessingService`. -/
structure WorkflowFrontendPayloadDto where
  summary : String
  metrics : MetricsDto
  violations : List PolicyViolationDto
  suggestions : List String
  quiz : List JsValue
  improvedText : List ImprovedTextDto
  meta : MetaDto
deriving DecidableEq, Repr

/-- Model of JavaScript `Array.prototype.join(sep)`. -/
def strJoin (sep : String) : List String → String
| [] => ""
| [x] => x
| x :: y :: xs => x ++ sep ++ strJoin sep (y :: xs)

/-- Source `ProcessingService.applyPolicyValidations`: no policy yields `[]`; else
concatenate summary and improved-text contents and run the two term checks,
each guarded by presence and non-emptiness of its term list. -/
def applyPolicyValidations (payload : WorkflowFrontendPayloadDto)
    (policy : Option PolicyDto) : List PolicyViolationDto :=
  match policy with
  | none => []
  | some p =>
    let content := payload.summary ++ " " ++ strJoin " " (payload.improvedText.map (·.content))
    let requiredViolations :=
      match p.requiredTerms with
      | some ts => if 0 < ts.length then checkRequiredTerms content ts else []
      | none => []
    let forbiddenViolations :=
      match p.forbiddenTerms with
      | some ts => if 0 < ts.length then checkForbiddenTerms content ts else []
      | none => []
    requiredViolations ++ forbiddenViolations

/-- The push-loop of the term checks is equivalent to filter-then-map. -/
theorem foldl_push_filter_map {α β : Type} (f : α → Bool) (g : α → β) :
    ∀ (l : List α) (acc : List β),
      l.foldl (fun vs t => if f t then vs ++ [g t] else vs) acc =
        acc ++ (l.filter f).map g := by
  intro l
  induction l with
  | nil => intro acc; simp
  | cons x xs ih =>
    intro acc
    by_cases h : f x <;> simp [List.foldl_cons, h, ih, List.filter_cons]

/-- C5: `checkForbiddenTerms` yields exactly one `forbidden_term` violation of
severity `high` per term of the list that occurs case-insensitively in the
text (the matched-or-not decision is a Boolean containment test, so the number
of occurrences of the term in the text is irrelevant); `checkRequiredTerms`
yields exactly one `missing_required_term` violation of severity `medium` per
term that does not occur; empty term lists and an absent policy yield the
empty violation list, and no input makes the checks fail. -/
theorem checkTerms_one_violation_per_term (text : String) (terms : List String)
    (payload : WorkflowFrontendPayloadDto) :
    checkForbiddenTerms text terms =
      (terms.filter
        (fun t => jsIncludes (jsToLowerCase text) (jsToLowerCase t))).map
        (fun t => { rule := "forbidden_term",
                    message := "Termo proibido encontrado: \"" ++ t ++ "\"",
                    severity := Severity.high })
    ∧ checkRequiredTerms text terms =
      (terms.filter
        (fun t => !(jsIncludes (jsToLowerCase text) (jsToLowerCase t)))).map
        (fun t => { rule := "missing_required_term",
                    message := "Termo obrigatório não encontrado: \"" ++ t ++ "\"",
                    severity := Severity.medium })
    ∧ checkForbiddenTerms text [] = []
    ∧ checkRequiredTerms text [] = []
    ∧ applyPolicyValidations payload none = [] := by
  refine ⟨?_, ?_, ?_, ?_, rfl⟩
  · simpa [checkForbiddenTerms] using
      foldl_push_filter_map
        (fun t => jsIncludes (jsToLowerCase text) (jsToLowerCase t))
        (fun t => ({ rule := "forbidden_term",
                     message := "Termo proibido encontrado: \"" ++ t ++ "\"",
                     severity := Severity.high } : PolicyViolationDto)) terms []
  · simpa [checkRequiredTerms] using
      foldl_push_filter_map
        (fun t => !(jsIncludes (jsToLowerCase text) (jsToLowerCase t)))
        (fun t => ({ rule := "missing_required_term",
                     message := "Termo obrigatório não encontrado: \"" ++ t ++ "\"",
                     severity := Severity.medium } : PolicyViolationDto)) terms []
  · rfl
  · rfl

/-- One row of the static per-model rate table (`input` and `output` are USD
per 1000 tokens). -/
structure ModelPricing where
  input : ℚ
  output : ℚ
deriving DecidableEq, Repr

/-- The static rate table of `IaProviderService.calculateCost`. -/
def pricing (model : String) : Option ModelPricing :=
  if model = "gpt-4o" then some ⟨0.005, 0.015⟩
  else if model = "gpt-4o-mini" then some ⟨0.00015, 0.0006⟩
  else if model = "gpt-4-turbo" then some ⟨0.01, 0.03⟩
  else if model = "gpt-4" then some ⟨0.03, 0.06⟩
  else if model = "gpt-3.5-turbo" then some ⟨0.0005, 0.0015⟩
  else none

/-- The fallback rates used for models absent from the table: the
`gpt-4o-mini` entry (`pricing[model]` falling back to the `gpt-4o-mini` row). -/
def defaultPricing : ModelPricing := ⟨0.00015, 0.0006⟩

/-- The effective rates the cost computation uses for a model. -/
def ratesFor (model : String) : ModelPricing :=
  (pricing model).getD defaultPricing

/-- Source `IaProviderService.calculateCost` (exact-arithmetic model of the float
computation; the operations involved are monotone in floats as well). -/
def calculateCost (model : String) (tokensIn tokensOut : ℚ) : ℚ :=
  let modelPricing := ratesFor model
  (tokensIn / 1000) * modelPricing.input + (tokensOut / 1000) * modelPricing.output

theorem ratesFor_nonneg (model : String) :
    0 ≤ (ratesFor model).input ∧ 0 ≤ (ratesFor model).output := by
  simp only [ratesFor, pricing, defaultPricing]
  split_ifs <;> simp <;> norm_num

theorem ratesFor_ge_default (model : String) :
    defaultPricing.input ≤ (ratesFor model).input ∧
      defaultPricing.output ≤ (ratesFor model).output := by
  simp only [ratesFor, pricing, defaultPricing]
  split_ifs <;> simp <;> norm_num

/-- C7: for a fixed model the computed cost is monotone non-decreasing in each
token count, equals `(tokensIn/1000)*inputRate + (tokensOut/1000)*outputRate`
with the rates drawn from the static table, and a model absent from the table
is charged with the `gpt-4o-mini` entry — which is both the default and the
cheapest row of the table. -/
theorem calculateCost_monotone_and_table (model : String) (tIn tIn' tOut tOut' : ℕ)
    (h1 : tIn ≤ tIn') (h2 : tOut ≤ tOut') :
    calculateCost model tIn tOut ≤ calculateCost model tIn' tOut
    ∧ calculateCost model tIn tOut ≤ calculateCost model tIn tOut'
    ∧ calculateCost model tIn tOut =
        ((tIn : ℚ) / 1000) * (ratesFor model).input
          + ((tOut : ℚ) / 1000) * (ratesFor model).output
    ∧ (pricing model = none →
        calculateCost model tIn tOut = calculateCost "gpt-4o-mini" tIn tOut)
    ∧ calculateCost "gpt-4o-mini" tIn tOut ≤ calculateCost model tIn tOut
    ∧ pricing "gpt-4o-mini" = some defaultPricing := by
  obtain ⟨hin, hout⟩ := ratesFor_nonneg model
  obtain ⟨hdin, hdout⟩ := ratesFor_ge_default model
  have hIn : (tIn : ℚ) ≤ (tIn' : ℚ) := by exact_mod_cast h1
  have hOut : (tOut : ℚ) ≤ (tOut' : ℚ) := by exact_mod_cast h2
  have hInPos : (0 : ℚ) ≤ (tIn : ℚ) := by positivity
  have hOutPos : (0 : ℚ) ≤ (tOut : ℚ) := by positivity
  have key : ∀ a a' c : ℚ, 0 ≤ c → a ≤ a' → a / 1000 * c ≤ a' / 1000 * c := by
    intro a a' c hc h
    have h' : a / 1000 ≤ a' / 1000 := by linarith
    exact mul_le_mul_of_nonneg_right h' hc
  have key2 : ∀ a c c' : ℚ, 0 ≤ a → c ≤ c' → a / 1000 * c ≤ a / 1000 * c' := by
    intro a c c' ha h
    exact mul_le_mul_of_nonneg_left h (by positivity)
  refine ⟨?_, ?_, rfl, ?_, ?_, ?_⟩
  · simp only [calculateCost]
    exact add_le_add (key _ _ _ hin hIn) le_rfl
  · simp only [calculateCost]
    exact add_le_add le_rfl (key _ _ _ hout hOut)
  · intro hnone
    have hm : pricing "gpt-4o-mini" = some defaultPricing := by
      simp [pricing, defaultPricing]
    simp only [calculateCost, ratesFor, hnone, hm, Option.getD_none, Option.getD_some]
  · simp only [calculateCost]
    have hmini : ratesFor "gpt-4o-mini" = defaultPricing := by
      simp [ratesFor, pricing, defaultPricing]
    rw [hmini]
    exact add_le_add (key2 _ _ _ hInPos hdin) (key2 _ _ _ hOutPos hdout)
  · simp [pricing, defaultPricing]

/-- Witness for `calculateCost_monotone_and_table` at model `gpt-x`
(not in the table), token counts 100 ≤ 200 and 50 ≤ 50. -/
theorem calculateCost_monotone_and_table_witness :
    (100 : ℕ) ≤ 200 ∧ (50 : ℕ) ≤ 50 ∧
      (calculateCost "gpt-x" ((100 : ℕ) : ℚ) ((50 : ℕ) : ℚ) ≤
          calculateCost "gpt-x" ((200 : ℕ) : ℚ) ((50 : ℕ) : ℚ)
       ∧ calculateCost "gpt-x" ((100 : ℕ) : ℚ) ((50 : ℕ) : ℚ) ≤
           calculateCost "gpt-x" ((100 : ℕ) : ℚ) ((50 : ℕ) : ℚ)
       ∧ calculateCost "gpt-x" ((100 : ℕ) : ℚ) ((50 : ℕ) : ℚ) =
           (((100 : ℕ) : ℚ) / 1000) * (ratesFor "gpt-x").input
             + (((50 : ℕ) : ℚ) / 1000) * (ratesFor "gpt-x").output
       ∧ (pricing "gpt-x" = none →
           calculateCost "gpt-x" ((100 : ℕ) : ℚ) ((50 : ℕ) : ℚ) =
             calculateCost "gpt-4o-mini" ((100 : ℕ) : ℚ) ((50 : ℕ) : ℚ))
       ∧ calculateCost "gpt-4o-mini" ((100 : ℕ) : ℚ) ((50 : ℕ) : ℚ) ≤
           calculateCost "gpt-x" ((100 : ℕ) : ℚ) ((50 : ℕ) : ℚ)
       ∧ pricing "gpt-4o-mini" = some defaultPricing) :=
  ⟨by norm_num, le_refl _,
    calculateCost_monotone_and_table "gpt-x" 100 200 50 50 (by norm_num) (le_refl _)⟩

/-- Metadata block of a `ProcessRequestDto`. Fields the validator tests with
JavaScript truthiness are `Option String` (`none` = absent/undefined; `some
""` is falsy as well). -/
structure MetadataDto where
  title : Option String
  discipline : Option String
  courseId : Option String
  language : Option String
deriving DecidableEq, Repr

/-- Execution mode of a request. -/
inductive Mode
| sync
| async
deriving DecidableEq, Repr

/-- Generation options of a `ProcessRequestDto`. -/
structure OptionsDto where
  modelHint : Option String
  maxResponseTokens : Option ℚ
  temperature : Option ℚ
deriving DecidableEq, Repr

/-- The slice of `ProcessRequestDto` the validated pipeline reads. -/
structure ProcessRequestDto where
  workflowId : Option String
  authorId : Option String
  mode : Mode
  text : Option String
  metadata : Option MetadataDto
  policy : Option PolicyDto
  callbackUrl : Option String
  options : Option OptionsDto
deriving DecidableEq, Repr

/-- JavaScript `a || b` on an optional string: the default wins when the
value is absent or empty (both falsy). -/
def jsOrStr (v : Option String) (dflt : String) : String :=
  match v with
  | some s => if s = "" then dflt else s
  | none => dflt

/-- JavaScript truthiness of an optional string: `undefined`/`null` and the
empty string are falsy. -/
def strTruthy : Option String → Bool
| none => false
| some s => s ≠ ""

/-- Model of JavaScript `String.prototype.trim`: strip leading and trailing
whitespace. -/
def jsTrim (s : String) : String :=
  ⟨((s.data.dropWhile Char.isWhitespace).reverse.dropWhile Char.isWhitespace).reverse⟩

/-- ASCII letter test (scheme start characters of a URL). -/
def isAsciiAlpha (c : Char) : Bool :=
  ('a' ≤ c ∧ c ≤ 'z') ∨ ('A' ≤ c ∧ c ≤ 'Z')

/-- Characters allowed after the first character of a URL scheme. -/
def isSchemeChar (c : Char) : Bool :=
  isAsciiAlpha c ∨ ('0' ≤ c ∧ c ≤ '9') ∨ c = '+' ∨ c = '-' ∨ c = '.'

/-- Splits `scheme ":" rest`, demanding a well-formed scheme. -/
def splitScheme : List Char → Option (List Char × List Char)
| [] => none
| c :: cs =>
  if isAsciiAlpha c then
    let rec go : List Char → List Char → Option (List Char × List Char)
    | _, [] => none
    | acc, d :: ds =>
      if d = ':' then some (acc.reverse, ds)
      else if isSchemeChar d then go (d :: acc) ds
      else none
    go [c] cs
  else none

/-- The WHATWG special schemes that require an authority component. -/
def specialSchemes : List String := ["http", "https", "ws", "wss", "ftp"]

/-- Model of the WHATWG URL constructor (`new URL(s)`) as used by the
validator: `true` iff the constructor does not throw. A string parses when it
has a well-formed `scheme:` head; a special scheme (`http`, `https`, `ws`,
`wss`, `ftp`) additionally needs `//` and a non-empty host, `file` accepts an
empty host, and any other scheme takes the remainder as an opaque path. This
approximates host validation (percent-escapes, IP literals) conservatively;
it is faithful on the concrete URLs appearing in this development. -/
def urlCanParse (s : String) : Bool :=
  match splitScheme s.data with
  | none => false
  | some (scheme, rest) =>
    let schemeStr := jsToLowerCase ⟨scheme⟩
    if specialSchemes.contains schemeStr then
      match rest with
      | '/' :: '/' :: hostAndPath =>
        let host := hostAndPath.takeWhile (fun c => c ≠ '/' ∧ c ≠ '?' ∧ c ≠ '#')
        !host.isEmpty
      | _ => false
    else true

/-- Error raised by the validator (`BadRequestException` message). -/
abbrev ValidationError := String

/-- Source `ValidationService.validateProcessRequest`: the exact check sequence of
the source — workflowId falsy, text falsy/blank after trim, metadata absent,
any of title/discipline/courseId/language falsy, async mode without a
callback URL, and a provided callback URL that the URL constructor rejects. -/
def validateProcessRequest (request : ProcessRequestDto) : Except ValidationError Unit :=
  if !strTruthy request.workflowId then
    Except.error "workflowId é obrigatório e deve ser uma string"
  else if !strTruthy request.text ∨ jsTrim (request.text.getD "") = "" then
    Except.error "text é obrigatório e não pode estar vazio"
  else
    match request.metadata with
    | none => Except.error "metadata é obrigatório"
    | some md =>
      if !strTruthy md.title ∨ !strTruthy md.discipline ∨
          !strTruthy md.courseId ∨ !strTruthy md.language then
        Except.error "metadata deve conter title, discipline, courseId e language"
      else if request.mode = Mode.async ∧ !strTruthy request.callbackUrl then
        Except.error "callbackUrl é obrigatório para modo async"
      else if strTruthy request.callbackUrl ∧
          !urlCanParse (request.callbackUrl.getD "") then
        Except.error "callbackUrl deve ser uma URL válida"
      else Except.ok ()

/-- A syntactically well-formed async request whose callback URL uses the
`ftp` scheme: every field the validator checks is present and valid. -/
def ftpCallbackRequest : ProcessRequestDto :=
  { workflowId := some "wf-1"
    authorId := some "author-1"
    mode := Mode.async
    text := some "conteudo educacional"
    metadata := some { title := some "Titulo", discipline := some "Matematica",
                       courseId := some "c-1", language := some "pt-BR" }
    policy := none
    callbackUrl := some "ftp://example.com/callback"
    options := none }

/-- C6 counterexample: the claim says an async request whose callback URL
parses with a scheme other than http/https (here `ftp:`) is rejected; the
validator only requires `new URL` not to throw, so this request passes
validation, and its URL does parse. -/
theorem validateProcessRequest_accepts_ftp_callback :
    ftpCallbackRequest.mode = Mode.async
    ∧ ftpCallbackRequest.callbackUrl = some "ftp://example.com/callback"
    ∧ urlCanParse "ftp://example.com/callback" = true
    ∧ validateProcessRequest ftpCallbackRequest = Except.ok () := by
  refine ⟨rfl, rfl, rfl, rfl⟩

/-- C6 (amended): validation fails for an async request whose callback URL is
absent (or empty), and for any request whose provided callback URL the URL
constructor cannot parse; the scheme is not restricted to http/https (see the
counterexample). -/
theorem validateProcessRequest_callback_checks (request : ProcessRequestDto)
    (hasync : request.mode = Mode.async) :
    (strTruthy request.callbackUrl = false →
      validateProcessRequest request ≠ Except.ok ())
    ∧ (∀ u, request.callbackUrl = some u → urlCanParse u = false →
        validateProcessRequest request ≠ Except.ok ()) := by
  constructor
  · intro hcb
    unfold validateProcessRequest
    split
    · exact fun h => by cases h
    · split
      · exact fun h => by cases h
      · split
        · exact fun h => by cases h
        · split
          · exact fun h => by cases h
          · split
            · exact fun h => by cases h
            · rename_i hguard
              exact absurd ⟨hasync, by simp [hcb]⟩ hguard
  · intro u hu hparse
    unfold validateProcessRequest
    split
    · exact fun h => by cases h
    · split
      · exact fun h => by cases h
      · split
        · exact fun h => by cases h
        · split
          · exact fun h => by cases h
          · split
            · exact fun h => by cases h
            · rename_i hguard1
              split
              · exact fun h => by cases h
              · rename_i hguard2
                rw [not_and_or] at hguard1
                rcases hguard1 with h | h
                · exact absurd hasync h
                · have h2 : strTruthy request.callbackUrl = true := by
                    revert h; cases strTruthy request.callbackUrl <;> simp
                  exact absurd ⟨h2, by simp [hu, hparse]⟩ hguard2

/-- Witness for `validateProcessRequest_callback_checks`: an async request
with no callback URL is rejected, and one with the unparseable URL `"notaurl"`
is rejected. -/
theorem validateProcessRequest_callback_checks_witness :
    ({ ftpCallbackRequest with callbackUrl := none } : ProcessRequestDto).mode = Mode.async
    ∧ (strTruthy ({ ftpCallbackRequest with callbackUrl := none } : ProcessRequestDto).callbackUrl = false →
        validateProcessRequest { ftpCallbackRequest with callbackUrl := none } ≠ Except.ok ())
    ∧ (∀ u, ({ ftpCallbackRequest with callbackUrl := some "notaurl" } : ProcessRequestDto).callbackUrl = some u →
        urlCanParse u = false →
        validateProcessRequest { ftpCallbackRequest with callbackUrl := some "notaurl" } ≠ Except.ok ()) :=
  ⟨rfl,
    (validateProcessRequest_callback_checks { ftpCallbackRequest with callbackUrl := none } rfl).1,
    (validateProcessRequest_callback_checks { ftpCallbackRequest with callbackUrl := some "notaurl" } rfl).2⟩

/-- Source `ExecutionMetadataDto`: model, token counts, latency and cost of one AI
round. Numeric fields are exact rationals. -/
structure ExecutionMetadataDto where
  model : String
  tokensIn : ℚ
  tokensOut : ℚ
  latencyMs : ℚ
  costUsd : ℚ
deriving DecidableEq, Repr

/-- Source `ProcessResponseDto`, the success payload of `processContent`. -/
structure ProcessResponseDto where
  workflowId : String
  status : String
  payload : WorkflowFrontendPayloadDto
  execution : ExecutionMetadataDto
deriving DecidableEq, Repr

/-- Lifecycle status of an execution record. -/
inductive ExecStatus
| pending
| processing
| completed
| error
deriving DecidableEq, Repr

/-- A status is terminal when it is `completed` or `error`. -/
def ExecStatus.isTerminal : ExecStatus → Bool
| completed => true
| error => true
| _ => false

/-- Source `ExecutionRecord` of `PersistenceService`; timestamps are abstract `Nat`
instants. -/
structure ExecutionRecord where
  id : String
  workflowId : String
  authorId : Option String
  mode : Mode
  status : ExecStatus
  input : ProcessRequestDto
  output : Option ProcessResponseDto
  execution : Option ExecutionMetadataDto
  createdAt : Nat
  updatedAt : Nat
  completedAt : Option Nat
  error : Option String
deriving DecidableEq, Repr

/-- The private `executions : Map<string, ExecutionRecord>`, modelled as an
insertion-ordered association list with `Map.set` replace-or-append
semantics. -/
abbrev ExecStore := List (String × ExecutionRecord)

/-- JavaScript `Map.prototype.set`: replace the binding in place when the key
exists, else append. -/
def mapSet {β : Type} : List (String × β) → String → β → List (String × β)
| [], k, v => [(k, v)]
| (k', v') :: rest, k, v =>
  if k' = k then (k, v) :: rest else (k', v') :: mapSet rest k v

/-- JavaScript `Map.prototype.get` (`none` = `undefined`). -/
def mapGet {β : Type} : List (String × β) → String → Option β
| [], _ => none
| (k', v') :: rest, k => if k' = k then some v' else mapGet rest k

/-- Number of entries stored under a key (1 for any reachable `Map` state). -/
def keyCount {β : Type} (store : List (String × β)) (k : String) : Nat :=
  store.countP (fun e => decide (e.1 = k))

/-- Source `PersistenceService.saveInitialExecution`: build a fresh record and
unconditionally `Map.set` it under the workflow id. The source performs no
lookup and no duplicate/active-record check before the `set`. `newId` models
`generateId()` and `now` models `new Date()`. -/
def saveInitialExecution (executions : ExecStore) (workflowId : String)
    (request : ProcessRequestDto) (status : ExecStatus) (newId : String)
    (now : Nat) : ExecutionRecord × ExecStore :=
  let record : ExecutionRecord :=
    { id := newId
      workflowId := workflowId
      authorId := request.authorId
      mode := request.mode
      status := status
      input := request
      output := none
      execution := none
      createdAt := now
      updatedAt := now
      completedAt := none
      error := none }
  (record, mapSet executions workflowId record)

/-- Source `PersistenceService.updateExecutionStatus`: `null` when the id is
unknown; otherwise overwrite status and `updatedAt`, store output/execution
when provided, store a non-empty error text (JavaScript truthiness skips an
empty string), and stamp `completedAt` when entering `completed` or
`error`. -/
def updateExecutionStatus (executions : ExecStore) (workflowId : String)
    (status : ExecStatus) (output : Option ProcessResponseDto)
    (execution : Option ExecutionMetadataDto) (error : Option String)
    (now : Nat) : Option ExecutionRecord × ExecStore :=
  match mapGet executions workflowId with
  | none => (none, executions)
  | some record =>
    let r1 := { record with status := status, updatedAt := now }
    let r2 := match output with
      | some o => { r1 with output := some o }
      | none => r1
    let r3 := match execution with
      | some e => { r2 with execution := some e }
      | none => r2
    let r4 := match error with
      | some e => if e ≠ "" then { r3 with error := some e } else r3
      | none => r3
    let r5 := if status = ExecStatus.completed ∨ status = ExecStatus.error then
        { r4 with completedAt := some now }
      else r4
    (some r5, mapSet executions workflowId r5)

/-- Deletion loop of `PersistenceService.cleanOldRecords`: every record with
`createdAt < cutoff` is deleted and counted — the status of the record is not
consulted. -/
def cleanOldRecordsGo (cutoff : Nat) : ExecStore → Nat × ExecStore
| [] => (0, [])
| e :: rest =>
  let r := cleanOldRecordsGo cutoff rest
  if e.2.createdAt < cutoff then (r.1 + 1, r.2) else (r.1, e :: r.2)

/-- Source `PersistenceService.cleanOldRecords(olderThanDays)`: `cutoff` is the
computed `cutoffDate` (now minus `olderThanDays` days); returns the number of
removed records together with the surviving store. -/
def cleanOldRecords (executions : ExecStore) (cutoff : Nat) : Nat × ExecStore :=
  cleanOldRecordsGo cutoff executions

theorem mapGet_set_self {β : Type} (store : List (String × β)) (k : String) (v : β) :
    mapGet (mapSet store k v) k = some v := by
  induction store with
  | nil => simp [mapSet, mapGet]
  | cons e rest ih =>
    by_cases h : e.1 = k
    · simp [mapSet, mapGet, h]
    · simp [mapSet, mapGet, h, ih]

theorem mapGet_set_ne {β : Type} (store : List (String × β)) (k w : String) (v : β)
    (hne : w ≠ k) : mapGet (mapSet store k v) w = mapGet store w := by
  have hkw : ¬(k = w) := fun hh => hne hh.symm
  induction store with
  | nil => simp [mapSet, mapGet, hkw]
  | cons e rest ih =>
    obtain ⟨k1, v1⟩ := e
    by_cases h : k1 = k
    · simp [mapSet, mapGet, h, hkw]
    · by_cases h2 : k1 = w <;> simp [mapSet, mapGet, h, h2, ih, hne]

theorem keyCount_set {β : Type} (store : List (String × β)) (k : String) (v : β)
    (h : keyCount store k ≤ 1) : keyCount (mapSet store k v) k = 1 := by
  induction store with
  | nil => simp [mapSet, keyCount]
  | cons e rest ih =>
    obtain ⟨k1, v1⟩ := e
    by_cases he : k1 = k
    · have hzero : rest.countP (fun e => decide (e.1 = k)) = 0 := by
        have hle : rest.countP (fun e => decide (e.1 = k)) + 1 ≤ 1 := by
          simpa [keyCount, List.countP_cons, he] using h
        omega
      simp [mapSet, he, keyCount, List.countP_cons, hzero]
    · have h' : keyCount rest k ≤ 1 := by
        simpa [keyCount, List.countP_cons, he] using h
      have hres := ih h'
      simpa [mapSet, he, keyCount, List.countP_cons] using hres

/-- C2 (amended): the store keys records by workflow id, so it never holds
two records for one id (`keyCount` stays 1), but `saveInitialExecution` has
no failure outcome: it always builds a fresh record from the request and
stores it under the id, silently replacing whatever record — terminal or
active — was there, and leaving every other id untouched. -/
theorem saveInitialExecution_always_overwrites (executions : ExecStore)
    (workflowId : String) (request : ProcessRequestDto) (status : ExecStatus)
    (newId : String) (now : Nat) (hwf : keyCount executions workflowId ≤ 1) :
    (saveInitialExecution executions workflowId request status newId now).1.status = status
    ∧ (saveInitialExecution executions workflowId request status newId now).1.input = request
    ∧ (saveInitialExecution executions workflowId request status newId now).1.workflowId = workflowId
    ∧ mapGet (saveInitialExecution executions workflowId request status newId now).2 workflowId =
        some (saveInitialExecution executions workflowId request status newId now).1
    ∧ (∀ w, w ≠ workflowId →
        mapGet (saveInitialExecution executions workflowId request status newId now).2 w =
          mapGet executions w)
    ∧ keyCount (saveInitialExecution executions workflowId request status newId now).2 workflowId = 1 := by
  refine ⟨rfl, rfl, rfl, ?_, ?_, ?_⟩
  · exact mapGet_set_self executions workflowId _
  · intro w hw
    exact mapGet_set_ne executions workflowId w _ hw
  · exact keyCount_set executions workflowId _ hwf

/-- A record sitting in the store in the non-terminal `processing` state. -/
def activeRecordW1 : ExecutionRecord :=
  { id := "exec_1"
    workflowId := "wf-1"
    authorId := some "author-1"
    mode := Mode.sync
    status := ExecStatus.processing
    input := ftpCallbackRequest
    output := none
    execution := none
    createdAt := 0
    updatedAt := 0
    completedAt := none
    error := none }

/-- A second request reusing workflow id `wf-1`. -/
def secondRequestW1 : ProcessRequestDto :=
  { ftpCallbackRequest with
    mode := Mode.sync
    callbackUrl := none
    text := some "segundo conteudo" }

/-- C2 counterexample: with a `processing` (non-terminal) record already
stored under `wf-1`, `saveInitialExecution` for the same id does not fail —
it returns a fresh record and replaces the active one in the store, so the
at-most-one-active rule is not enforced by the store. -/
theorem saveInitialExecution_no_duplicate_check :
    activeRecordW1.status.isTerminal = false
    ∧ mapGet [("wf-1", activeRecordW1)] "wf-1" = some activeRecordW1
    ∧ (saveInitialExecution [("wf-1", activeRecordW1)] "wf-1" secondRequestW1
        ExecStatus.processing "exec_2" 5).1.input = secondRequestW1
    ∧ mapGet (saveInitialExecution [("wf-1", activeRecordW1)] "wf-1" secondRequestW1
        ExecStatus.processing "exec_2" 5).2 "wf-1" ≠ some activeRecordW1 := by
  refine ⟨rfl, rfl, rfl, ?_⟩
  intro h
  simp only [saveInitialExecution, mapSet, mapGet] at h
  have := Option.some.inj h
  have hid : "exec_2" = "exec_1" := congrArg ExecutionRecord.id this
  exact absurd hid (by decide)

/-- Witness for `saveInitialExecution_always_overwrites` on a store holding
one terminal record for `wf-1`. -/
theorem saveInitialExecution_always_overwrites_witness :
    keyCount [("wf-1", activeRecordW1)] "wf-1" ≤ 1
    ∧ ((saveInitialExecution [("wf-1", activeRecordW1)] "wf-1" secondRequestW1
          ExecStatus.pending "exec_3" 9).1.status = ExecStatus.pending
       ∧ (saveInitialExecution [("wf-1", activeRecordW1)] "wf-1" secondRequestW1
          ExecStatus.pending "exec_3" 9).1.input = secondRequestW1
       ∧ (saveInitialExecution [("wf-1", activeRecordW1)] "wf-1" secondRequestW1
          ExecStatus.pending "exec_3" 9).1.workflowId = "wf-1"
       ∧ mapGet (saveInitialExecution [("wf-1", activeRecordW1)] "wf-1" secondRequestW1
          ExecStatus.pending "exec_3" 9).2 "wf-1" =
          some (saveInitialExecution [("wf-1", activeRecordW1)] "wf-1" secondRequestW1
            ExecStatus.pending "exec_3" 9).1
       ∧ (∀ w, w ≠ "wf-1" →
          mapGet (saveInitialExecution [("wf-1", activeRecordW1)] "wf-1" secondRequestW1
            ExecStatus.pending "exec_3" 9).2 w = mapGet [("wf-1", activeRecordW1)] w)
       ∧ keyCount (saveInitialExecution [("wf-1", activeRecordW1)] "wf-1" secondRequestW1
          ExecStatus.pending "exec_3" 9).2 "wf-1" = 1) :=
  ⟨by simp [keyCount, List.countP_cons],
    saveInitialExecution_always_overwrites [("wf-1", activeRecordW1)] "wf-1" secondRequestW1
      ExecStatus.pending "exec_3" 9 (by simp [keyCount, List.countP_cons])⟩

/-- C3 (amended): the retention sweep removes exactly the records whose
`createdAt` lies before the cutoff — terminal or not — and returns how many
it removed; the status of a record plays no role in the decision. -/
theorem cleanOldRecords_filters_by_age_only (executions : ExecStore) (cutoff : Nat) :
    (cleanOldRecords executions cutoff).2 =
      executions.filter (fun e => decide (cutoff ≤ e.2.createdAt))
    ∧ (cleanOldRecords executions cutoff).1 =
        executions.countP (fun e => decide (e.2.createdAt < cutoff)) := by
  unfold cleanOldRecords
  induction executions with
  | nil => simp [cleanOldRecordsGo]
  | cons e rest ih =>
    by_cases h : e.2.createdAt < cutoff
    · simp [cleanOldRecordsGo, h, ih.1, ih.2, List.filter_cons, List.countP_cons,
        Nat.not_le.mpr h]
    · simp [cleanOldRecordsGo, h, ih.1, ih.2, List.filter_cons, List.countP_cons,
        Nat.le_of_not_lt h]

/-- C3 counterexample: a `processing` (non-terminal, hence never completed)
record older than the cutoff is removed by the sweep, and counted — the claim
that non-terminal records survive regardless of age is false. -/
theorem cleanOldRecords_removes_active_records :
    activeRecordW1.status.isTerminal = false
    ∧ activeRecordW1.createdAt = 0
    ∧ cleanOldRecords [("wf-1", activeRecordW1)] 10 = (1, []) := by
  refine ⟨rfl, rfl, rfl⟩

/-- A provider-side failure: `ServiceUnavailableException(message)`. -/
inductive ProviderError
| serviceUnavailable : String → ProviderError
deriving DecidableEq, Repr

/-- The `message` carried by a provider error. -/
def ProviderError.message : ProviderError → String
| serviceUnavailable m => m

/-- Source `IaResponse`: raw AI text plus accounting metadata. -/
structure IaResponse where
  content : String
  metadata : ExecutionMetadataDto
deriving DecidableEq, Repr

/-- Source `IaProviderService.validateAndCorrectResponse`. `parse` models
`JSON.parse` (`none` = throws). If the response already parses it is returned
as-is with zero-cost metadata (model defaulting per `options?.model` with default `gpt-4o`) and no further AI call. Otherwise exactly one corrective
`processPrompt` call is issued — its outcome is the `correction` parameter —
and its content is returned when it parses, else a
`ServiceUnavailableException` is thrown. The second component counts the
corrective `processPrompt` calls issued. -/
def validateAndCorrectResponse {α : Type} (parse : String → Option α)
    (response : String) (correction : Except ProviderError IaResponse)
    (modelOpt : Option String) : Except ProviderError IaResponse × Nat :=
  match parse response with
  | some _ =>
    (Except.ok
      { content := response
        metadata :=
          { model := jsOrStr modelOpt "gpt-4o"
            tokensIn := 0
            tokensOut := 0
            latencyMs := 0
            costUsd := 0 } }, 0)
  | none =>
    match correction with
    | Except.error e => (Except.error e, 1)
    | Except.ok correctedResponse =>
      match parse correctedResponse.content with
      | some _ => (Except.ok correctedResponse, 1)
      | none =>
        (Except.error
          (ProviderError.serviceUnavailable "Não foi possível processar a resposta da IA"), 1)

/-- Model of JavaScript template interpolation of a possibly-undefined
string (an absent value prints as `undefined`). -/
def jsInterpolate : Option String → String
| some s => s
| none => "undefined"

/-- JavaScript `String.prototype.substring(0, n)`: the first `n` units
(faithful for the texts involved). -/
def jsSubstringTo (s : String) (n : Nat) : String :=
  ⟨s.data.take n⟩

/-- Source `ProcessingService.createFallbackPayload`: summary templated from the
request title, fixed default metrics, empty violation/suggestion/quiz lists,
one improved-text entry holding `request.text.substring(0, 500)` plus an ellipsis, and
fallback meta ids. An absent `text` would make the source throw before
building the object; validated requests always carry a text, and the model
uses the empty-string default on that unreachable path. -/
def createFallbackPayload (request : ProcessRequestDto) : WorkflowFrontendPayloadDto :=
  { summary := "Resumo básico do conteúdo: " ++
      jsInterpolate (request.metadata.bind (·.title))
    metrics := { readabilityScore := 50, durationMin := 5, coverage := 60 }
    violations := []
    suggestions := []
    quiz := []
    improvedText := [{ sectionName := "Conteúdo",
                       content := jsSubstringTo (request.text.getD "") 500 ++ "..." }]
    meta := { rawId := "fallback", adaptedId := "fallback" } }

/-- Environment of one `processContent` run: the outcomes of the (at most
two) external `processPrompt` round trips. -/
structure AiEnv where
  firstCall : Except ProviderError IaResponse
  correctionCall : Except ProviderError IaResponse
deriving Repr

/-- Result of one `processContent` run: the returned value or thrown
exception, the final execution store, and the number of `processPrompt`
calls issued. -/
structure ProcessOutcome where
  result : Except ProviderError ProcessResponseDto
  store : ExecStore
  aiCalls : Nat
deriving Repr

/-- The catch-block of `processContent`: mark the execution record `error`
with the failure message (a no-op when no record exists yet) and throw the
generic `ServiceUnavailableException`. -/
def processContentCatch (store : ExecStore) (workflowId : String)
    (message : String) (now : Nat) (aiCalls : Nat) : ProcessOutcome :=
  let upd := updateExecutionStatus store workflowId ExecStatus.error none none
    (some message) now
  { result := Except.error
      (ProviderError.serviceUnavailable "Falha no processamento do conteúdo")
    store := upd.2
    aiCalls := aiCalls }

/-- Source `ProcessingService.processContent`. `parse` models `JSON.parse` of the
payload, `sanitize` the regex-based `sanitizeText` transform (opaque here; no
claim depends on its output), `env` the external AI provider, `newId`/`now`
the id generator and clock. `validatePolicy` cannot fail in the typed model
(it only rejects non-array fields). The steps mirror the source: validate,
sanitize, save the initial `processing` record, call the AI, reconcile the
schema, parse the payload (falling back when `JSON.parse` throws), apply
policy checks, mark `completed`; any thrown error lands in the catch-block
which records `error` and re-throws. -/
def processContent (parse : String → Option WorkflowFrontendPayloadDto)
    (sanitize : String → String) (env : AiEnv) (store : ExecStore)
    (request : ProcessRequestDto) (newId : String) (now : Nat) : ProcessOutcome :=
  let wid := request.workflowId.getD ""
  match validateProcessRequest request with
  | Except.error e => processContentCatch store wid e now 0
  | Except.ok _ =>
    let sanitizedRequest := { request with text := some (sanitize (request.text.getD "")) }
    let store1 := (saveInitialExecution store wid sanitizedRequest
      ExecStatus.processing newId now).2
    match env.firstCall with
    | Except.error e => processContentCatch store1 wid e.message now 1
    | Except.ok iaResponse =>
      let vac := validateAndCorrectResponse parse iaResponse.content env.correctionCall
        (some (jsOrStr (request.options.bind (·.modelHint)) "gpt-4o"))
      match vac.1 with
      | Except.error e => processContentCatch store1 wid e.message now (1 + vac.2)
      | Except.ok correctedResponse =>
        let payload :=
          match parse correctedResponse.content with
          | some p => p
          | none => createFallbackPayload sanitizedRequest
        let payload2 :=
          { payload with violations := applyPolicyValidations payload sanitizedRequest.policy }
        let response : ProcessResponseDto :=
          { workflowId := wid
            status := "completed"
            payload := payload2
            execution := correctedResponse.metadata }
        let upd := updateExecutionStatus store1 wid ExecStatus.completed (some response)
          (some correctedResponse.metadata) none now
        { result := Except.ok response, store := upd.2, aiCalls := 1 + vac.2 }

/-- A valid legacy-mode request processed synchronously. -/
def legacyRequest : ProcessRequestDto :=
  { workflowId := some "wf-c1"
    authorId := some "author-1"
    mode := Mode.sync
    text := some "texto educacional"
    metadata := some { title := some "Titulo", discipline := some "Matematica",
                       courseId := some "c-1", language := some "pt-BR" }
    policy := none
    callbackUrl := none
    options := none }

/-- An AI environment in which both the original response and the corrected
response are strings `JSON.parse` rejects (paired with `parse := fun _ =>
none` below). -/
def envBothUnparseable : AiEnv :=
  { firstCall := Except.ok
      { content := "resposta sem json"
        metadata := { model := "gpt-4o", tokensIn := 10, tokensOut := 10,
                      latencyMs := 100, costUsd := 0 } }
    correctionCall := Except.ok
      { content := "ainda sem json"
        metadata := { model := "gpt-4o", tokensIn := 10, tokensOut := 10,
                      latencyMs := 100, costUsd := 0 } } }

/-- C1: when the AI answer fails `JSON.parse` on the original call and again
on the single corrective retry, `validateAndCorrectResponse` throws; the
throw propagates past the step-7 fallback (that catch only guards the
re-parse of an already-parseable string), so `processContent` re-throws
`ServiceUnavailableException` to the caller and the execution record for the
workflow id ends in status `error` with no output payload — not in
`completed` with the fallback payload as the specification states. -/
theorem processContent_double_parse_failure_ends_in_error :
    (processContent (fun _ => none) (fun s => s) envBothUnparseable [] legacyRequest
        "exec_c1" 7).result =
      Except.error (ProviderError.serviceUnavailable "Falha no processamento do conteúdo")
    ∧ (mapGet (processContent (fun _ => none) (fun s => s) envBothUnparseable [] legacyRequest
        "exec_c1" 7).store "wf-c1").map (fun r => r.status) = some ExecStatus.error
    ∧ (mapGet (processContent (fun _ => none) (fun s => s) envBothUnparseable [] legacyRequest
        "exec_c1" 7).store "wf-c1").map (fun r => r.output) = some none := by
  refine ⟨rfl, rfl, rfl⟩

/-- The schema reconciler issues no corrective call when the first response
parses, and exactly one when it does not. -/
theorem validateAndCorrectResponse_call_count {α : Type} (parse : String → Option α)
    (response : String) (correction : Except ProviderError IaResponse)
    (modelOpt : Option String) :
    (validateAndCorrectResponse parse response correction modelOpt).2 =
      if (parse response).isSome then 0 else 1 := by
  unfold validateAndCorrectResponse
  cases parse response with
  | none =>
    cases correction with
    | error e => simp
    | ok c => rcases hc : parse c.content <;> simp [hc]
  | some _ => simp

/-- C4: a `processContent` run issues at most two `processPrompt` calls (the
original plus at most one corrective call), and the corrective-call count of
`validateAndCorrectResponse` is exactly 0 when the first response parses and
exactly 1 when it does not. -/
theorem processContent_at_most_two_ai_calls
    (parse : String → Option WorkflowFrontendPayloadDto) (sanitize : String → String)
    (env : AiEnv) (store : ExecStore) (request : ProcessRequestDto)
    (newId : String) (now : Nat) (response : String)
    (correction : Except ProviderError IaResponse) (modelOpt : Option String) :
    (processContent parse sanitize env store request newId now).aiCalls ≤ 2
    ∧ (validateAndCorrectResponse parse response correction modelOpt).2 =
        if (parse response).isSome then 0 else 1 := by
  constructor
  · unfold processContent
    cases validateProcessRequest request with
    | error e => simp [processContentCatch]
    | ok u =>
      cases env.firstCall with
      | error e => simp [processContentCatch]
      | ok ia =>
        have hvac := validateAndCorrectResponse_call_count parse ia.content
          env.correctionCall
          (some (jsOrStr (request.options.bind (·.modelHint)) "gpt-4o"))
        simp only []
        cases hres : (validateAndCorrectResponse parse ia.content env.correctionCall
            (some (jsOrStr (request.options.bind (·.modelHint)) "gpt-4o"))).1 with
        | error e =>
          simp [processContentCatch, hres]
          rw [hvac]
          split <;> omega
        | ok c =>
          simp [hres]
          rw [hvac]
          split <;> omega
  · exact validateAndCorrectResponse_call_count parse response correction modelOpt

/-- C9 (amended): the fallback payload is a pure function of the request; it
carries exactly one improved-text section whose content is the ≤500-character
prefix of the original input text followed by the literal ellipsis `"..."`
(the content is therefore not itself a prefix — see the counterexample),
together with the fixed default metrics 50/5/60, empty violation, suggestion
and quiz lists, and a summary templated from the request title. -/
theorem createFallbackPayload_shape (request : ProcessRequestDto) (t : String)
    (ht : request.text = some t) :
    (createFallbackPayload request).improvedText =
      [{ sectionName := "Conteúdo", content := jsSubstringTo t 500 ++ "..." }]
    ∧ (jsSubstringTo t 500).data <+: t.data
    ∧ (jsSubstringTo t 500).data.length ≤ 500
    ∧ (createFallbackPayload request).metrics =
        { readabilityScore := 50, durationMin := 5, coverage := 60 }
    ∧ (createFallbackPayload request).violations = []
    ∧ (createFallbackPayload request).suggestions = []
    ∧ (createFallbackPayload request).quiz = []
    ∧ (createFallbackPayload request).summary =
        "Resumo básico do conteúdo: " ++ jsInterpolate (request.metadata.bind (·.title)) := by
  refine ⟨?_, ?_, ?_, rfl, rfl, rfl, rfl, rfl⟩
  · simp [createFallbackPayload, ht]
  · exact List.take_prefix 500 t.data
  · simp [jsSubstringTo]

/-- A validated request with the three-character text `abc`. -/
def shortTextRequest : ProcessRequestDto :=
  { legacyRequest with text := some "abc" }

/-- Witness for `createFallbackPayload_shape` at the request with text
`abc`. -/
theorem createFallbackPayload_shape_witness :
    shortTextRequest.text = some "abc"
    ∧ ((createFallbackPayload shortTextRequest).improvedText =
        [{ sectionName := "Conteúdo", content := jsSubstringTo "abc" 500 ++ "..." }]
      ∧ (jsSubstringTo "abc" 500).data <+: "abc".data
      ∧ (jsSubstringTo "abc" 500).data.length ≤ 500
      ∧ (createFallbackPayload shortTextRequest).metrics =
          { readabilityScore := 50, durationMin := 5, coverage := 60 }
      ∧ (createFallbackPayload shortTextRequest).violations = []
      ∧ (createFallbackPayload shortTextRequest).suggestions = []
      ∧ (createFallbackPayload shortTextRequest).quiz = []
      ∧ (createFallbackPayload shortTextRequest).summary =
          "Resumo básico do conteúdo: " ++
            jsInterpolate (shortTextRequest.metadata.bind (·.title))) :=
  ⟨rfl, createFallbackPayload_shape shortTextRequest "abc" rfl⟩

/-- C9 counterexample: for the request with input text `abc` the single
content of the single improved-text section is `abc...` — the prefix plus an appended
ellipsis — which is not a prefix of the original text, refuting the claim
that the content IS a truncated prefix of the input. -/
theorem createFallbackPayload_content_not_a_prefix :
    (createFallbackPayload shortTextRequest).improvedText =
      [{ sectionName := "Conteúdo", content := "abc..." }]
    ∧ ¬(("abc...").data <+: ("abc").data) := by
  constructor
  · rfl
  · intro h
    have hle := h.length_le
    simp at hle

/-- One section of a `ChapterResponseDto`; the optional sub-lists hold
uninterpreted JSON objects. -/
structure ChapterSectionDto where
  id : String
  title : String
  content : String
  type : String
  subsections : Option (List JsValue)
  activities : Option (List JsValue)
  assessments : Option (List JsValue)
deriving DecidableEq, Repr

/-- Source `ChapterResponseDto` of the incremental generation engine; the ISO
timestamp strings are abstract clock inputs. -/
structure ChapterResponseDto where
  id : String
  courseId : String
  chapterNumber : Int
  title : String
  content : String
  sections : List ChapterSectionDto
  status : String
  createdAt : String
  updatedAt : String
  metrics : MetricsDto
  suggestions : List String
  canContinue : Bool
  availableContinueTypes : List String
deriving DecidableEq, Repr

/-- AI options of a `CreateChapterDto`. -/
structure ChapterAiOptionsDto where
  model : Option String
  temperature : Option ℚ
  maxTokens : Option ℚ
  includeActivities : Option Bool
  includeAssessments : Option Bool
deriving DecidableEq, Repr

/-- Source `CreateChapterDto`. -/
structure CreateChapterDto where
  courseId : String
  courseTitle : String
  courseDescription : String
  subject : String
  educationalLevel : String
  targetAudience : String
  template : String
  philosophy : String
  previousChapter : Option String
  chapterNumber : Option Int
  pdfBibliographies : Option (List String)
  pdfUrls : Option (List String)
  aiOptions : Option ChapterAiOptionsDto
  additionalContext : Option String
deriving DecidableEq, Repr

/-- The four continuation operations of `ContinueChapterDto.continueType`. -/
inductive ContinueType
| expand
| add_section
| add_activities
| add_assessments
deriving DecidableEq, Repr

/-- Source `ContinueChapterDto`. -/
structure ContinueChapterDto where
  chapterId : String
  continueType : ContinueType
  sectionId : Option String
  additionalContext : Option String
deriving DecidableEq, Repr

/-- JavaScript `v || dflt` on an optional number: absent and `0` are falsy. -/
def jsOrNum (v : Option Int) (dflt : Int) : Int :=
  match v with
  | some n => if n = 0 then dflt else n
  | none => dflt

/-- JavaScript `list[i] || dflt`: out-of-range (or negative) indexing gives
`undefined`, and an empty string is falsy too. -/
def jsIndexOr (l : List String) (i : Int) (dflt : String) : String :=
  match i with
  | Int.ofNat n =>
    match l.get? n with
    | some s => if s = "" then dflt else s
    | none => dflt
  | _ => dflt

/-- The `subjects` lookup table of `generateChapterTitle` (subject, already
lowercased, to canned chapter-title list). -/
def subjectTitleTable (subject : String) : Option (List String) :=
  if subject = "bioquimica" then
    some ["Introdução à Bioquímica", "Biomoléculas", "Metabolismo", "Enzimas", "Bioenergética"]
  else if subject = "matematica" then
    some ["Números e Operações", "Geometria", "Álgebra", "Estatística", "Probabilidade"]
  else if subject = "historia" then
    some ["Introdução à História", "Períodos Históricos", "Civilizações", "Revoluções",
          "História Contemporânea"]
  else if subject = "ciencias" then
    some ["Método Científico", "Física Básica", "Química", "Biologia", "Meio Ambiente"]
  else if subject = "empreendedorismo" then
    some ["Fundamentos do Empreendedorismo", "Identificação de Oportunidades",
          "Planejamento de Negócios", "Marketing e Vendas", "Gestão Financeira"]
  else none

/-- Source `IncrementalGenerationService.generateChapterTitle`: index the canned
title list of the lowercased subject (generic titles for unknown subjects)
with the 1-based chapter number, defaulting to `Tópico n`. -/
def generateChapterTitle (subject : String) (chapterNumber : Int) : String :=
  let chapterTitles := (subjectTitleTable (jsToLowerCase subject)).getD
    ["Introdução", "Desenvolvimento", "Aplicação", "Avaliação", "Conclusão"]
  jsIndexOr chapterTitles (chapterNumber - 1) ("Tópico " ++ toString chapterNumber)

/-- Source `generateFallbackContent`: the fixed four-part markdown template
interpolating subject, level, philosophy and audience, trimmed. -/
def generateFallbackContent (createChapterDto : CreateChapterDto)
    (chapterNumber : Int) : String :=
  let title := generateChapterTitle createChapterDto.subject chapterNumber
  jsTrim ("\n# " ++ title ++
    "\n\n## Introdução\nEste capítulo aborda os conceitos fundamentais relacionados ao tema \"" ++
    createChapterDto.subject ++
    "\", proporcionando uma base sólida para o aprendizado de estudantes do " ++
    createChapterDto.educationalLevel ++
    ".\n\n## Conteúdo Principal\nBaseado na filosofia educacional \"" ++
    createChapterDto.philosophy ++
    "\", este conteúdo foi desenvolvido para atender ao público-alvo: " ++
    createChapterDto.targetAudience ++
    ".\n\n## Aplicação Prática\nOs conceitos apresentados serão aplicados através de exemplos práticos e atividades interativas, seguindo a metodologia ativa de aprendizagem e considerando o contexto do Maranhão.\n\n## Conclusão\nEste capítulo estabelece as bases para os próximos tópicos, garantindo uma progressão adequada do aprendizado e o desenvolvimento das competências necessárias.\n    ")

/-- Source `generateFallbackSections`: three templated section stubs (the source
takes the dto and chapter number but reads neither). -/
def generateFallbackSections (createChapterDto : CreateChapterDto)
    (chapterNumber : Int) : List ChapterSectionDto :=
  [{ id := "section-1", title := "Contextualizando",
     content := "Contexto e introdução ao tema do capítulo.",
     type := "contextualizing", subsections := some [], activities := some [],
     assessments := none },
   { id := "section-2", title := "Aprofundando",
     content := "Desenvolvimento dos conceitos principais.",
     type := "deepening", subsections := some [], activities := some [],
     assessments := none },
   { id := "section-3", title := "Praticando",
     content := "Atividades práticas e exercícios.",
     type := "practicing", subsections := some [], activities := some [],
     assessments := none }]

/-- Source `createFallbackChapter`: the deterministic chapter built from the
subject→title lookup table and the templated content/sections, in status
`generated` with fixed metrics and suggestions. -/
def createFallbackChapter (chapterId : String) (chapterNumber : Int)
    (createChapterDto : CreateChapterDto) (now : String) : ChapterResponseDto :=
  { id := chapterId
    courseId := createChapterDto.courseId
    chapterNumber := chapterNumber
    title := "Capítulo " ++ toString chapterNumber ++ ": " ++
      generateChapterTitle createChapterDto.subject chapterNumber
    content := generateFallbackContent createChapterDto chapterNumber
    sections := generateFallbackSections createChapterDto chapterNumber
    status := "generated"
    createdAt := now
    updatedAt := now
    metrics := { readabilityScore := 70, durationMin := 2, coverage := 75 }
    suggestions := ["Considere adicionar mais exemplos práticos",
                    "Inclua atividades de fixação",
                    "Adicione avaliações formativas"]
    canContinue := true
    availableContinueTypes := ["expand", "add_section", "add_activities"] }

/-- The fields `parseChapterResponse` reads from the parsed AI JSON. -/
structure ParsedChapter where
  title : Option String
  content : Option String
  sections : Option (List ChapterSectionDto)
  estimatedDuration : Option Int
  canContinue : Option Bool
  availableContinueTypes : Option (List String)
deriving DecidableEq, Repr

/-- Source `parseChapterResponse`: on `JSON.parse` success assemble the chapter from
the parsed fields with the `||` defaults of the source (note `parsed.canContinue
|| true` always evaluates to `true`); on parse failure return the fallback
chapter. -/
def parseChapterResponse (parse : String → Option ParsedChapter) (aiContent : String)
    (chapterId : String) (chapterNumber : Int) (createChapterDto : CreateChapterDto)
    (now : String) : ChapterResponseDto :=
  match parse aiContent with
  | some parsed =>
    { id := chapterId
      courseId := createChapterDto.courseId
      chapterNumber := chapterNumber
      title := jsOrStr parsed.title ("Capítulo " ++ toString chapterNumber)
      content := jsOrStr parsed.content ""
      sections := parsed.sections.getD []
      status := "generated"
      createdAt := now
      updatedAt := now
      metrics := { readabilityScore := 75,
                   durationMin := jsOrNum parsed.estimatedDuration 2,
                   coverage := 80 }
      suggestions := ["Considere adicionar mais exemplos práticos",
                      "Inclua atividades de fixação",
                      "Adicione avaliações formativas"]
      canContinue := true
      availableContinueTypes :=
        parsed.availableContinueTypes.getD ["expand", "add_section", "add_activities"] }
  | none => createFallbackChapter chapterId chapterNumber createChapterDto now

/-- The chapter storage `Map<string, ChapterResponseDto>`. -/
abbrev ChapterStore := List (String × ChapterResponseDto)

/-- Source `IncrementalGenerationService.createChapter`. `tryOutcome` is the joint
outcome of the effectful steps inside the `try` (PDF processing, course
context and the `processPrompt` AI call): an exception there lands in the
catch-block, which returns the local fallback chapter without storing it.
On success the response is parsed (falling back internally on parse failure)
and the resulting chapter is stored. The course-aggregate bookkeeping
(`courseStorage`) feeds only the prompt and is not modelled. -/
def createChapter (parse : String → Option ParsedChapter)
    (tryOutcome : Except ProviderError IaResponse) (chapterStorage : ChapterStore)
    (createChapterDto : CreateChapterDto) (chapterId : String) (now : String) :
    ChapterResponseDto × ChapterStore :=
  let chapterNumber := jsOrNum createChapterDto.chapterNumber 1
  match tryOutcome with
  | Except.error _ =>
    (createFallbackChapter chapterId chapterNumber createChapterDto now, chapterStorage)
  | Except.ok aiResponse =>
    let chapter := parseChapterResponse parse aiResponse.content chapterId chapterNumber
      createChapterDto now
    (chapter, mapSet chapterStorage chapterId chapter)

/-- The fields `applyContinue` reads from the parsed continuation JSON. -/
structure ParsedContinuation where
  content : Option String
  sections : Option (List ChapterSectionDto)
  activities : Option (List JsValue)
  assessments : Option (List JsValue)
deriving DecidableEq, Repr

/-- Source `applyContinue`: parse the AI content; on success stamp `updatedAt` and
apply the switch on the continuation type (`expand` replaces the body,
`add_section` appends sections, `add_activities`/`add_assessments` append
into the list of every section, initializing absent lists); on `JSON.parse`
failure return the chapter unchanged. -/
def applyContinue (parse : String → Option ParsedContinuation)
    (existingChapter : ChapterResponseDto) (aiContent : String)
    (continueType : ContinueType) (now : String) : ChapterResponseDto :=
  match parse aiContent with
  | none => existingChapter
  | some parsed =>
    let updatedChapter := { existingChapter with updatedAt := now }
    match continueType with
    | ContinueType.expand =>
      { updatedChapter with content := jsOrStr parsed.content existingChapter.content }
    | ContinueType.add_section =>
      match parsed.sections with
      | some ss => { updatedChapter with sections := existingChapter.sections ++ ss }
      | none => updatedChapter
    | ContinueType.add_activities =>
      match parsed.activities with
      | some acts =>
        { updatedChapter with
          sections := updatedChapter.sections.map (fun s =>
            { s with activities := some ((s.activities.getD []) ++ acts) }) }
      | none => updatedChapter
    | ContinueType.add_assessments =>
      match parsed.assessments with
      | some asmts =>
        { updatedChapter with
          sections := updatedChapter.sections.map (fun s =>
            { s with assessments := some ((s.assessments.getD []) ++ asmts) }) }
      | none => updatedChapter

/-- Source `IncrementalGenerationService.continueChapter`: unknown chapter id or a
failed AI call throw; otherwise the continuation is applied and the result
stored back under the chapter id. -/
def continueChapter (parse : String → Option ParsedContinuation)
    (aiCall : Except ProviderError IaResponse) (chapterStorage : ChapterStore)
    (continueChapterDto : ContinueChapterDto) (now : String) :
    Except String ChapterResponseDto × ChapterStore :=
  match mapGet chapterStorage continueChapterDto.chapterId with
  | none => (Except.error "Capítulo não encontrado", chapterStorage)
  | some existingChapter =>
    match aiCall with
    | Except.error e => (Except.error e.message, chapterStorage)
    | Except.ok aiResponse =>
      let updatedChapter := applyContinue parse existingChapter aiResponse.content
        continueChapterDto.continueType now
      (Except.ok updatedChapter,
        mapSet chapterStorage continueChapterDto.chapterId updatedChapter)

/-- C8: when the AI response of a continuation fails `JSON.parse`,
`applyContinue` returns the stored chapter itself — so content, sections and
every per-section activity/assessment list are untouched — and
`continueChapter` returns that unchanged chapter and stores it back under the
same id. -/
theorem continueChapter_parse_failure_unchanged
    (parse : String → Option ParsedContinuation) (chapterStorage : ChapterStore)
    (continueChapterDto : ContinueChapterDto) (now : String)
    (ch : ChapterResponseDto) (r : IaResponse)
    (hch : mapGet chapterStorage continueChapterDto.chapterId = some ch)
    (hparse : parse r.content = none) :
    applyContinue parse ch r.content continueChapterDto.continueType now = ch
    ∧ (continueChapter parse (Except.ok r) chapterStorage continueChapterDto now).1 =
        Except.ok ch
    ∧ mapGet (continueChapter parse (Except.ok r) chapterStorage
        continueChapterDto now).2 continueChapterDto.chapterId = some ch := by
  have happly : applyContinue parse ch r.content continueChapterDto.continueType now = ch := by
    unfold applyContinue
    rw [hparse]
  refine ⟨happly, ?_, ?_⟩
  · unfold continueChapter
    rw [hch]
    dsimp only
    rw [happly]
  · unfold continueChapter
    rw [hch]
    dsimp only
    rw [happly]
    exact mapGet_set_self chapterStorage continueChapterDto.chapterId ch

/-- A stored chapter with two sections (one carrying an activity list). -/
def twoSectionChapter : ChapterResponseDto :=
  { id := "ch-1"
    courseId := "course-1"
    chapterNumber := 1
    title := "Capítulo 1: Números e Operações"
    content := "Conteúdo original do capítulo."
    sections :=
      [{ id := "section-1", title := "Contextualizando", content := "Introdução.",
         type := "contextualizing", subsections := none, activities := some ["atividade-1"],
         assessments := none },
       { id := "section-2", title := "Aprofundando", content := "Conceitos.",
         type := "deepening", subsections := none, activities := none,
         assessments := some ["avaliacao-1"] }]
    status := "generated"
    createdAt := "t0"
    updatedAt := "t0"
    metrics := { readabilityScore := 75, durationMin := 2, coverage := 80 }
    suggestions := []
    canContinue := true
    availableContinueTypes := ["expand", "add_section", "add_activities"] }

/-- A continuation request targeting `ch-1` with `add_section`. -/
def sampleContinueDto : ContinueChapterDto :=
  { chapterId := "ch-1"
    continueType := ContinueType.add_section
    sectionId := none
    additionalContext := none }

/-- An AI response whose content `JSON.parse` rejects. -/
def badJsonResponse : IaResponse :=
  { content := "resposta nao json"
    metadata := { model := "gpt-4", tokensIn := 10, tokensOut := 10,
                  latencyMs := 100, costUsd := 0 } }

/-- Witness for `continueChapter_parse_failure_unchanged` on the concrete
two-section chapter with an unparseable AI response. -/
theorem continueChapter_parse_failure_unchanged_witness :
    mapGet [("ch-1", twoSectionChapter)] sampleContinueDto.chapterId = some twoSectionChapter
    ∧ (fun _ : String => (none : Option ParsedContinuation)) badJsonResponse.content = none
    ∧ (applyContinue (fun _ => none) twoSectionChapter badJsonResponse.content
        sampleContinueDto.continueType "t1" = twoSectionChapter
       ∧ (continueChapter (fun _ => none) (Except.ok badJsonResponse)
            [("ch-1", twoSectionChapter)] sampleContinueDto "t1").1 = Except.ok twoSectionChapter
       ∧ mapGet (continueChapter (fun _ => none) (Except.ok badJsonResponse)
            [("ch-1", twoSectionChapter)] sampleContinueDto "t1").2
            sampleContinueDto.chapterId = some twoSectionChapter) :=
  ⟨rfl, rfl,
    continueChapter_parse_failure_unchanged (fun _ => none) [("ch-1", twoSectionChapter)]
      sampleContinueDto "t1" twoSectionChapter badJsonResponse rfl rfl⟩

/-- C10: `createChapter` is total: whatever the outcome of the effectful
steps (`tryOutcome`) and of `JSON.parse`, it returns a chapter in status
`generated`; when the AI call (or any effectful step before it) throws, or when the
AI content fails to parse, that chapter is exactly the deterministic
fallback chapter built from the subject→title table and the templated
stubs. -/
theorem createChapter_total_and_fallback (parse : String → Option ParsedChapter)
    (tryOutcome : Except ProviderError IaResponse) (chapterStorage : ChapterStore)
    (createChapterDto : CreateChapterDto) (chapterId : String) (now : String) :
    (createChapter parse tryOutcome chapterStorage createChapterDto chapterId now).1.status =
      "generated"
    ∧ (∀ e, tryOutcome = Except.error e →
        (createChapter parse tryOutcome chapterStorage createChapterDto chapterId now).1 =
          createFallbackChapter chapterId (jsOrNum createChapterDto.chapterNumber 1)
            createChapterDto now)
    ∧ (∀ r, tryOutcome = Except.ok r → parse r.content = none →
        (createChapter parse tryOutcome chapterStorage createChapterDto chapterId now).1 =
          createFallbackChapter chapterId (jsOrNum createChapterDto.chapterNumber 1)
            createChapterDto now) := by
  refine ⟨?_, ?_, ?_⟩
  · cases tryOutcome with
    | error e => simp [createChapter, createFallbackChapter]
    | ok r =>
      simp only [createChapter]
      rcases hc : parse r.content with _ | p <;>
        simp [parseChapterResponse, hc, createFallbackChapter]
  · intro e he
    simp [createChapter, he]
  · intro r hr hparse
    simp [createChapter, hr, parseChapterResponse, hparse]

/-- A chapter-creation request for `matematica`, chapter 2. -/
def sampleCreateDto : CreateChapterDto :=
  { courseId := "course-1"
    courseTitle := "Curso de Matemática"
    courseDescription := "Curso introdutório"
    subject := "matematica"
    educationalLevel := "ensino médio"
    targetAudience := "estudantes"
    template := "padrão"
    philosophy := "aprendizagem ativa"
    previousChapter := none
    chapterNumber := some 2
    pdfBibliographies := none
    pdfUrls := none
    aiOptions := none
    additionalContext := none }

/-- The thrown outcome of a failed provider call. -/
def failedAiCall : Except ProviderError IaResponse :=
  Except.error (ProviderError.serviceUnavailable "Falha na comunicação com o provedor de IA")

/-- Witness for `createChapter_total_and_fallback`: a failed AI call and an
unparseable AI response both yield the concrete fallback chapter, in status
`generated`. -/
theorem createChapter_total_and_fallback_witness :
    (createChapter (fun _ => (none : Option ParsedChapter)) failedAiCall [] sampleCreateDto
        "chapter-1" "t0").1.status = "generated"
    ∧ (createChapter (fun _ => (none : Option ParsedChapter)) failedAiCall [] sampleCreateDto
        "chapter-1" "t0").1 =
        createFallbackChapter "chapter-1" (jsOrNum sampleCreateDto.chapterNumber 1)
          sampleCreateDto "t0"
    ∧ (createChapter (fun _ => (none : Option ParsedChapter)) (Except.ok badJsonResponse) []
        sampleCreateDto "chapter-1" "t0").1 =
        createFallbackChapter "chapter-1" (jsOrNum sampleCreateDto.chapterNumber 1)
          sampleCreateDto "t0" :=
  ⟨(createChapter_total_and_fallback (fun _ => none) failedAiCall [] sampleCreateDto
      "chapter-1" "t0").1,
   (createChapter_total_and_fallback (fun _ => none) failedAiCall [] sampleCreateDto
      "chapter-1" "t0").2.1 _ rfl,
   (createChapter_total_and_fallback (fun _ => none) (Except.ok badJsonResponse) []
      sampleCreateDto "chapter-1" "t0").2.2 badJsonResponse rfl rfl⟩

end AiService
